import Mathlib

/-!
Verification development for the KMRL-Vault frontend (src/frontend/src).

The repository is a browser single-page application; all logic under
verification lives in src/frontend/src/services/api.js (the axios client
wrapper, its request/response interceptors, the session bootstrap and the
per-endpoint wrapper functions), src/frontend/src/pages/ChatBot.jsx (the
simulated-chat keyword dispatcher), src/frontend/src/components/DocumentUpload.jsx
and src/frontend/src/pages/RagAnalysis.jsx (the current_document record
round-trip through browser storage).

Embedding conventions:
- JavaScript values (JSON bodies, envelopes) are modelled by the inductive
  type JVal, which includes a constructor for the JS undefined value.
- An awaited axios call is modelled by its outcome, ApiResult: a fulfilled
  response with a parsed body, an HTTP error carrying status, parsed error
  body and the transport message, or a network/timeout error carrying only
  a message.
- Each wrapper function of api.js is embedded as the total function from
  its inputs and the outcome of its single HTTP call to the envelope object
  it returns; try/catch is embedded by making the catch branch an ordinary
  case, including the cases where the try block itself throws a TypeError
  (property access on undefined).
- Browser localStorage is modelled by the Store structure holding the three
  keys this code uses.
- JS truthiness, the logical-or defaulting idiom and optional chaining are
  embedded by jTruthy, jsOr and jGetU.
-/

/-- Model of a JavaScript value as manipulated by api.js: the JSON values
plus the JS undefined value. Numbers are abstracted to integers (no claim
under verification depends on float behaviour). -/
inductive JVal where
  | null : JVal
  | undefVal : JVal
  | bool : Bool → JVal
  | num : Int → JVal
  | str : String → JVal
  | arr : List JVal → JVal
  | obj : List (String × JVal) → JVal

/-- First-match association lookup, as JS property access on an object
literal with distinct keys. -/
def lookupField (k : String) : List (String × JVal) → Option JVal
  | [] => none
  | (k2, v) :: fs => if k = k2 then some v else lookupField k fs

/-- Property access returning none when the object lacks the key or the
value is not an object (JS would give undefined for non-null receivers). -/
def jGet : JVal → String → Option JVal
  | .obj fields, k => lookupField k fields
  | _, _ => none

/-- Property access in JS style: a missing property reads as undefined. -/
def jGetU (v : JVal) (k : String) : JVal :=
  (jGet v k).getD .undefVal

/-- JS truthiness of a value. -/
def jTruthy : JVal → Bool
  | .null => false
  | .undefVal => false
  | .bool b => b
  | .num n => n != 0
  | .str s => !s.isEmpty
  | .arr _ => true
  | .obj _ => true

/-- The JS expression a logical-or b: the left value when truthy, else the
right value. -/
def jsOr (a b : JVal) : JVal :=
  if jTruthy a then a else b

/-- Is this value the JS undefined value. -/
def JVal.isUndefVal : JVal → Bool
  | .undefVal => true
  | _ => false

/-- Is this value the JS null or undefined value (property access on these
throws a TypeError). -/
def JVal.isNullish : JVal → Bool
  | .undefVal => true
  | .null => true
  | _ => false

/-- Field-name list of an object value (empty for non-objects). -/
def fieldNames : JVal → List String
  | .obj fields => fields.map Prod.fst
  | _ => []

/-- Read a field as a Bool, when it is one. -/
def jGetB (v : JVal) (k : String) : Option Bool :=
  match jGet v k with
  | some (.bool b) => some b
  | _ => none

/-- Read a field as a String, when it is one. -/
def jGetS (v : JVal) (k : String) : Option String :=
  match jGet v k with
  | some (.str s) => some s
  | _ => none

mutual

/-- JS String() coercion, as performed by localStorage.setItem on non-string
values. -/
def jsToString : JVal → String
  | .null => "null"
  | .undefVal => "undefined"
  | .bool b => cond b "true" "false"
  | .num n => toString n
  | .str s => s
  | .arr xs => joinArr xs
  | .obj _ => "[object Object]"
termination_by structural v => v

/-- Array.prototype.toString joins the elements with commas, rendering
null and undefined elements as empty strings. -/
def joinArr : List JVal → String
  | [] => ""
  | [.null] => ""
  | [.undefVal] => ""
  | [v] => jsToString v
  | .null :: w :: vs => "," ++ joinArr (w :: vs)
  | .undefVal :: w :: vs => "," ++ joinArr (w :: vs)
  | v :: w :: vs => jsToString v ++ "," ++ joinArr (w :: vs)
termination_by structural l => l

end

/-- Outcome of one awaited axios call, as observed by the code around it:
a fulfilled response with its parsed body, a rejected HTTP error (status,
parsed error body, transport message such as the axios text
Request failed with status code NNN), or a rejection with no response
(network failure or timeout), carrying only a message. -/
inductive ApiResult where
  | ok : JVal → ApiResult
  | httpError : Nat → JVal → String → ApiResult
  | networkError : String → ApiResult

/-- The JS expression error.response?.data?.detail on a caught axios error:
undefined unless the error has a response whose body carries the field. -/
def errDetail : ApiResult → JVal
  | .ok _ => .undefVal
  | .httpError _ body _ => jGetU body "detail"
  | .networkError _ => .undefVal

/-- The JS expression error.message on a caught axios error. -/
def errMessage : ApiResult → JVal
  | .ok _ => .undefVal
  | .httpError _ _ m => .str m
  | .networkError m => .str m

/-- The browser localStorage keys this code reads and writes: the token
under the key access_token, the key session_id, and the key
current_document written by DocumentUpload and read by RagAnalysis.
A value of none means the key is absent from storage. -/
structure Store where
  access_token : Option String
  session_id : Option String
  current_document : Option String

/-- Truthiness of a localStorage read: getItem yields null for an absent
key, and the empty string is falsy. -/
def tokenTruthy : Option String → Bool
  | none => false
  | some s => !s.isEmpty

/-- Replace or insert a header, as JS property assignment on the headers
object of an axios config. -/
def setHeader (k v : String) (hs : List (String × String)) : List (String × String) :=
  (k, v) :: hs.filter (fun p => p.1 ≠ k)

/-- Read a header from an axios config. -/
def getHeader (k : String) (hs : List (String × String)) : Option String :=
  match hs.find? (fun p => p.1 = k) with
  | some p => some p.2
  | none => none

/-- The default headers installed by axios.create in api.js. -/
def defaultHeaders : List (String × String) :=
  [("Content-Type", "application/json")]

/-- Embedding of the request interceptor of api.js (api.interceptors.request):
read the token from storage and, when truthy, set the Authorization header
to the bearer form; otherwise leave the config untouched. -/
def requestInterceptor (st : Store) (headers : List (String × String)) : List (String × String) :=
  match st.access_token with
  | some t => if t.isEmpty then headers else setHeader "Authorization" ("Bearer " ++ t) headers
  | none => headers

/-- Trace of one user-level request sent through the axios instance of
api.js, as driven by the response interceptor: the final settled outcome,
the final storage state, how many times createSession was invoked, and how
many requests reached the wrapped endpoint. -/
structure Trace where
  result : ApiResult
  store : Store
  sessionCalls : Nat
  attempts : Nat

/-- Embedding of the response interceptor of api.js
(api.interceptors.response) driving one user-level request to settlement.

The backend is modelled by srv, giving the outcome of the n-th request to
the wrapped endpoint, and by sess, giving the outcome of the n-th
createSession call (none when createSession throws; some (token, sid) when
it succeeds, after which both values are in storage).

The source has no retry-once guard: the replay return api(originalRequest)
is itself subject to the same interceptor, which this function models by
recursion. The fuel bound only serves to make the definition total; every
theorem below supplies enough fuel for the scripted backend. On a 401 the
interceptor removes the stored token, awaits createSession, and if a truthy
token is now in storage replays the original request; when createSession
throws, or the refreshed token is falsy, the original 401 rejection
propagates. Non-401 rejections and fulfilled responses pass through. -/
def runApi : Nat → Store → (Nat → ApiResult) → (Nat → Option (String × String)) → Nat → Nat → Trace
  | 0, st, _, _, attempt, sessCalls =>
      ⟨.networkError "timeout of 60000ms exceeded", st, sessCalls, attempt⟩
  | fuel + 1, st, srv, sess, attempt, sessCalls =>
      match srv attempt with
      | .ok body => ⟨.ok body, st, sessCalls, attempt + 1⟩
      | .httpError 401 body msg =>
          let st1 : Store := { st with access_token := none }
          match sess sessCalls with
          | some (tok, sid) =>
              let st2 : Store := { st1 with access_token := some tok, session_id := some sid }
              if tok.isEmpty then
                ⟨.httpError 401 body msg, st2, sessCalls + 1, attempt + 1⟩
              else
                runApi fuel st2 srv sess (attempt + 1) (sessCalls + 1)
          | none => ⟨.httpError 401 body msg, st1, sessCalls + 1, attempt + 1⟩
      | .httpError status body msg => ⟨.httpError status body msg, st, sessCalls, attempt + 1⟩
      | .networkError msg => ⟨.networkError msg, st, sessCalls, attempt + 1⟩

/-- One user-level request through the interceptor pipeline, starting at
attempt 0 with no createSession calls performed. -/
def runRequest (fuel : Nat) (st : Store) (srv : Nat → ApiResult)
    (sess : Nat → Option (String × String)) : Trace :=
  runApi fuel st srv sess 0 0

/-- The endpoint and request body of createSession in api.js: POST
/auth/create-session with the client-identifier payload. -/
def createSessionRequest : String × JVal :=
  ("/auth/create-session", .obj [("client_info", .str "web_client")])

/-- Embedding of createSession in api.js, mapping the outcome of its POST
to the updated storage plus either the returned pair (access_token and
session_id fields of the body, persisted through the String coercion of
localStorage.setItem) or, on failure, the thrown Error message
error.response?.data?.detail or the generic text. On a fulfilled response
whose body is null or undefined, the destructuring of response.data throws
a TypeError inside the try block; the catch sees an error with no response
field, so the generic message is thrown. The storage is returned unchanged
on every failure path: nothing is persisted in the catch branch. -/
def createSession (st : Store) (r : ApiResult) : Store × Except String (JVal × JVal) :=
  match r with
  | .ok body =>
      if body.isNullish then
        (st, .error "Failed to create session")
      else
        let access_token := jGetU body "access_token"
        let session_id := jGetU body "session_id"
        let st2 : Store := { st with access_token := some (jsToString access_token),
                                     session_id := some (jsToString session_id) }
        (st2, .ok (access_token, session_id))
  | e => (st, .error (jsToString (jsOr (errDetail e) (.str "Failed to create session"))))

/-- Embedding of storeDocumentChunks in api.js: POST the document data, and
map the outcome to the envelope. The request body does not influence the
envelope, so the embedding takes only the call outcome. -/
def storeDocumentChunks (r : ApiResult) : JVal :=
  match r with
  | .ok body => .obj [("success", .bool true), ("data", body)]
  | e => .obj [("success", .bool false),
               ("error", jsOr (errDetail e) (.str "Failed to store document"))]

/-- Embedding of runRiskAnalysis in api.js: the envelope produced from the
outcome of POST /analysis/risk-analysis. The failure message chain is
error.response?.data?.detail, then error.message, then the generic text. -/
def runRiskAnalysis (r : ApiResult) : JVal :=
  match r with
  | .ok body => .obj [("success", .bool true), ("data", body)]
  | e => .obj [("success", .bool false),
               ("error", jsOr (errDetail e) (jsOr (errMessage e) (.str "Risk analysis failed")))]

/-- Embedding of runNegotiationAssistant in api.js. -/
def runNegotiationAssistant (r : ApiResult) : JVal :=
  match r with
  | .ok body => .obj [("success", .bool true), ("data", body)]
  | e => .obj [("success", .bool false),
               ("error", jsOr (errDetail e) (jsOr (errMessage e) (.str "Negotiation assistance failed")))]

/-- Embedding of runDocumentSummary in api.js. -/
def runDocumentSummary (r : ApiResult) : JVal :=
  match r with
  | .ok body => .obj [("success", .bool true), ("data", body)]
  | e => .obj [("success", .bool false),
               ("error", jsOr (errDetail e) (jsOr (errMessage e) (.str "Document summary failed")))]

/-- Embedding of the legacy runRagAnalysis in api.js. -/
def runRagAnalysis (r : ApiResult) : JVal :=
  match r with
  | .ok body => .obj [("success", .bool true), ("data", body)]
  | e => .obj [("success", .bool false),
               ("error", jsOr (errDetail e) (.str "Analysis failed"))]

/-- Embedding of validateToken in api.js. -/
def validateToken (r : ApiResult) : JVal :=
  match r with
  | .ok body => .obj [("success", .bool true), ("data", body)]
  | e => .obj [("success", .bool false),
               ("error", jsOr (errDetail e) (.str "Token validation failed"))]

/-- Embedding of getSessionInfo in api.js. -/
def getSessionInfo (r : ApiResult) : JVal :=
  match r with
  | .ok body => .obj [("success", .bool true), ("data", body)]
  | e => .obj [("success", .bool false),
               ("error", jsOr (errDetail e) (.str "Failed to get session info"))]

/-- Message of the TypeError thrown by property access on undefined or null
inside a try block. The exact engine-dependent text is irrelevant to every
claim; what matters is that such an error has no response field, so the
catch chain falls through to error.message or the generic text. -/
def jsTypeErrorMessage : String :=
  "Cannot read properties of undefined"

/-- Embedding of chatWithDocument in api.js (the tokened variant, lines
179-213). The try block first evaluates messageData.message.substring,
which throws a TypeError unless the message field is a string; the same
catch as for HTTP failures then produces the failure envelope. On a
fulfilled response the data field is rebuilt from seven named fields of the
body (with sources defaulted to the empty array); property access on a
nullish body throws and lands in the catch as well. -/
def chatWithDocument (messageData : JVal) (r : ApiResult) : JVal :=
  match jGetU messageData "message" with
  | .str _ =>
      match r with
      | .ok body =>
          if body.isNullish then
            .obj [("success", .bool false), ("error", .str jsTypeErrorMessage)]
          else
            .obj [("success", .bool true),
                  ("data", .obj [
                    ("response", jGetU body "response"),
                    ("sources", jsOr (jGetU body "sources") (.arr [])),
                    ("conversation_id", jGetU body "conversation_id"),
                    ("timestamp", jGetU body "timestamp"),
                    ("context_used", jGetU body "context_used"),
                    ("model_used", jGetU body "model_used"),
                    ("confidence_score", jGetU body "confidence_score")])]
      | e => .obj [("success", .bool false),
                   ("error", jsOr (errDetail e) (jsOr (errMessage e) (.str "Chat request failed")))]
  | _ => .obj [("success", .bool false), ("error", .str jsTypeErrorMessage)]

/-- The five hard-coded fallback questions of getChatSuggestions. -/
def defaultSuggestions : JVal :=
  .arr [.str "What are the key terms in this document?",
        .str "What are the main obligations?",
        .str "Are there any risks I should know about?",
        .str "What are the payment terms?",
        .str "What are the termination conditions?"]

/-- Embedding of getChatSuggestions in api.js: on a fulfilled response the
suggestions are the suggested_questions field of the body defaulted to the
empty array; on any failure (HTTP error, network error, or a TypeError from
accessing a nullish body) the catch returns success false, the detail-or-
generic error message, and the five hard-coded default questions. -/
def getChatSuggestions (r : ApiResult) : JVal :=
  match r with
  | .ok body =>
      if body.isNullish then
        .obj [("success", .bool false),
              ("error", .str "Failed to get chat suggestions"),
              ("suggestions", defaultSuggestions)]
      else
        .obj [("success", .bool true),
              ("suggestions", jsOr (jGetU body "suggested_questions") (.arr [])),
              ("category", jGetU body "category")]
  | e => .obj [("success", .bool false),
               ("error", jsOr (errDetail e) (.str "Failed to get chat suggestions")),
               ("suggestions", defaultSuggestions)]

/-- Embedding of explainLegalClause in api.js. The try block evaluates
clauseText.substring, throwing unless clauseText is a string; the catch
chain has no error.message step, so a TypeError yields the generic text. -/
def explainLegalClause (clauseText : JVal) (r : ApiResult) : JVal :=
  match clauseText with
  | .str _ =>
      match r with
      | .ok body =>
          if body.isNullish then
            .obj [("success", .bool false), ("error", .str "Failed to explain legal clause")]
          else
            .obj [("success", .bool true),
                  ("explanation", jGetU body "clause_explanation"),
                  ("analysis_type", jGetU body "analysis_type"),
                  ("timestamp", jGetU body "timestamp")]
      | e => .obj [("success", .bool false),
                   ("error", jsOr (errDetail e) (.str "Failed to explain legal clause"))]
  | _ => .obj [("success", .bool false), ("error", .str "Failed to explain legal clause")]

/-- Embedding of getChatbotHealth in api.js. -/
def getChatbotHealth (r : ApiResult) : JVal :=
  match r with
  | .ok body =>
      if body.isNullish then
        .obj [("success", .bool false),
              ("error", .str "Chatbot health check failed"),
              ("status", .str "unknown")]
      else
        .obj [("success", .bool true),
              ("health", body),
              ("status", jGetU body "status"),
              ("features", jGetU body "features"),
              ("capabilities", jGetU body "capabilities")]
  | e => .obj [("success", .bool false),
               ("error", jsOr (errDetail e) (.str "Chatbot health check failed")),
               ("status", .str "unknown")]

/-- List-level prefix test used to embed the JS String.prototype.includes. -/
def listStartsWith : List Char → List Char → Bool
  | _, [] => true
  | [], _ :: _ => false
  | x :: xs, y :: ys => x == y && listStartsWith xs ys

/-- List-level substring test. -/
def listIncludes : List Char → List Char → Bool
  | [], pat => pat.isEmpty
  | c :: cs, pat => listStartsWith (c :: cs) pat || listIncludes cs pat

/-- The JS expression s.includes(pat). -/
def strIncludes (s pat : String) : Bool :=
  listIncludes s.toList pat.toList

/-- The JS expression s.toLowerCase(), on the ASCII questions at hand. -/
def jsToLower (s : String) : String :=
  String.mk (s.toList.map Char.toLower)

/-- Which backend wrapper the simulated-chat dispatcher of ChatBot.jsx
invokes for a question: runRiskAnalysis, runDocumentSummary,
runNegotiationAssistant, or the default branch (which itself invokes
runDocumentSummary and wraps the answer in a generic reply). -/
inductive ChatRoute where
  | riskAnalysis : ChatRoute
  | documentSummary : ChatRoute
  | negotiationAssistant : ChatRoute
  | generalSummary : ChatRoute
deriving DecidableEq

/-- Embedding of the branch selection of simulateChatResponse in
ChatBot.jsx (the simulated-chat variant): lowercase the question and test
the three synonym-set conditions in source order, falling through to the
default branch. -/
def simulateChatRoute (question : String) : ChatRoute :=
  let q := jsToLower question
  if strIncludes q "risk" || strIncludes q "danger" || strIncludes q "problem" then
    .riskAnalysis
  else if strIncludes q "summary" || strIncludes q "summarize" || strIncludes q "overview" then
    .documentSummary
  else if strIncludes q "negotiat" || strIncludes q "terms" || strIncludes q "clause" then
    .negotiationAssistant
  else
    .generalSummary

/-- Escape a raw string body for a JSON string literal: the printer emits
backslash escapes for the quote and the backslash (the only escapes
JSON.stringify needs for the values at hand). -/
def escChars : List Char → List Char
  | [] => []
  | c :: cs => if c = '"' ∨ c = '\\' then '\\' :: c :: escChars cs else c :: escChars cs

/-- Decimal digits, most significant first, by fuel-bounded division; the
fuel printNatChars supplies always suffices. -/
def printNatAux : Nat → Nat → List Char
  | 0, _ => []
  | fuel + 1, n => if n = 0 then [] else printNatAux fuel (n / 10) ++ [Nat.digitChar (n % 10)]

/-- Decimal digits of a natural number, most significant first. -/
def printNatChars (n : Nat) : List Char :=
  if n ≠ 0 then printNatAux n n else ['0']

/-- Decimal form of an integer. -/
def printIntChars : Int → List Char
  | .ofNat n => printNatChars n
  | .negSucc n => '-' :: printNatChars (n + 1)

/-- Keyword characters of the JSON null literal. -/
def kwNull : List Char := ['n', 'u', 'l', 'l']

/-- Keyword characters of the JSON true literal. -/
def kwTrue : List Char := ['t', 'r', 'u', 'e']

/-- Keyword characters of the JSON false literal. -/
def kwFalse : List Char := ['f', 'a', 'l', 's', 'e']

/-- Does the field list still contain a field JSON.stringify will print
(one whose value is not undefined). -/
def hasMoreFields (fs : List (String × JVal)) : Bool :=
  fs.any (fun p => !p.2.isUndefVal)

mutual

/-- Model of JSON.stringify on a JS value (compact form, no spacing):
undefined at top level produces no output, undefined array elements print
as null, and object fields whose value is undefined are dropped. -/
def printJson : JVal → List Char
  | .undefVal => []
  | .null => kwNull
  | .bool true => kwTrue
  | .bool false => kwFalse
  | .num n => printIntChars n
  | .str s => '"' :: (escChars s.toList ++ ['"'])
  | .arr vs => '[' :: (printElems vs ++ [']'])
  | .obj fs => '{' :: (printFieldsJ fs ++ ['}'])
termination_by structural v => v

/-- Comma-joined array elements; an undefined element renders as null. -/
def printElems : List JVal → List Char
  | [] => []
  | [.undefVal] => kwNull
  | [v] => printJson v
  | .undefVal :: w :: vs => kwNull ++ ',' :: printElems (w :: vs)
  | v :: w :: vs => printJson v ++ ',' :: printElems (w :: vs)
termination_by structural l => l

/-- Comma-joined object fields, skipping fields with undefined values. -/
def printFieldsJ : List (String × JVal) → List Char
  | [] => []
  | (k, v) :: fs =>
      if v.isUndefVal then printFieldsJ fs
      else ('"' :: (escChars k.toList ++ ['"', ':'])) ++ printJson v ++
           (if hasMoreFields fs then ',' :: printFieldsJ fs else printFieldsJ fs)
termination_by structural l => l

end

/-- JSON.stringify as used by navigateToAnalysis; none models the JS
result undefined (stringify of undefined itself). -/
def jsonStringify (v : JVal) : Option String :=
  if v.isUndefVal then none else some (String.mk (printJson v))

mutual

/-- Content of a JSON string literal after the opening quote, unescaping
what the printer escapes; yields the body and the input after the closing
quote. -/
def parseStringLit : List Char → Option (List Char × List Char)
  | [] => none
  | c :: cs =>
      if c = '"' then some ([], cs)
      else if c = '\\' then parseStringEsc cs
      else (parseStringLit cs).map (fun p => (c :: p.1, p.2))
termination_by structural l => l

/-- Continuation after a backslash: take the next character literally. -/
def parseStringEsc : List Char → Option (List Char × List Char)
  | [] => none
  | c2 :: cs2 => (parseStringLit cs2).map (fun p => (c2 :: p.1, p.2))
termination_by structural l => l

end

/-- Numeric value of a decimal digit character. -/
def digitVal (c : Char) : Nat :=
  c.toNat - '0'.toNat

/-- Read a maximal run of decimal digits as a natural number. -/
def parseNatChars (cs : List Char) : Option (Nat × List Char) :=
  let digits := cs.takeWhile Char.isDigit
  if digits.isEmpty then none
  else some (digits.foldl (fun a c => 10 * a + digitVal c) 0, cs.dropWhile Char.isDigit)

/-- Does the input start with the given character. -/
def headIs (cs : List Char) (c : Char) : Bool :=
  match cs with
  | c2 :: _ => c2 = c
  | [] => false

/-- The tail of the null keyword. -/
def parseLitNull : List Char → Option (JVal × List Char)
  | 'u' :: 'l' :: 'l' :: r => some (.null, r)
  | _ => none

/-- The tail of the true keyword. -/
def parseLitTrue : List Char → Option (JVal × List Char)
  | 'r' :: 'u' :: 'e' :: r => some (.bool true, r)
  | _ => none

/-- The tail of the false keyword. -/
def parseLitFalse : List Char → Option (JVal × List Char)
  | 'a' :: 'l' :: 's' :: 'e' :: r => some (.bool false, r)
  | _ => none

mutual

/-- Recursive-descent JSON reader (model of JSON.parse on the compact
strings the printer emits). The fuel argument only makes the recursion
structural; jsonParse supplies one unit of fuel per input character plus
one, which the round-trip theorem shows is always enough. -/
def parseVal : Nat → List Char → Option (JVal × List Char)
  | 0, _ => none
  | _ + 1, [] => none
  | f + 1, c :: cs =>
      if c.isDigit then
        (parseNatChars (c :: cs)).map (fun p => (.num (p.1 : Int), p.2))
      else if c = '"' then
        (parseStringLit cs).map (fun p => (.str (String.mk p.1), p.2))
      else if c = '-' then
        (parseNatChars cs).map (fun p => (.num (-(p.1 : Int)), p.2))
      else if c = '[' then
        if headIs cs ']' then some (.arr [], cs.tail)
        else (parseElems f cs).map (fun p => (.arr p.1, p.2))
      else if c = '{' then
        if headIs cs '}' then some (.obj [], cs.tail)
        else (parseFieldsJ f cs).map (fun p => (.obj p.1, p.2))
      else if c = 'n' then parseLitNull cs
      else if c = 't' then parseLitTrue cs
      else if c = 'f' then parseLitFalse cs
      else none
termination_by structural fuel cs => fuel

/-- Elements of a non-empty array body, up to and past the closing
bracket. -/
def parseElems : Nat → List Char → Option (List JVal × List Char)
  | 0, _ => none
  | f + 1, cs =>
      match parseVal f cs with
      | some (v, ',' :: r) => (parseElems f r).map (fun p => (v :: p.1, p.2))
      | some (v, ']' :: r) => some ([v], r)
      | _ => none
termination_by structural fuel cs => fuel

/-- Fields of a non-empty object body, up to and past the closing
brace. -/
def parseFieldsJ : Nat → List Char → Option (List (String × JVal) × List Char)
  | 0, _ => none
  | f + 1, cs =>
      match cs with
      | '"' :: cs1 =>
          match parseStringLit cs1 with
          | some (kcs, ':' :: cs2) =>
              match parseVal f cs2 with
              | some (v, ',' :: r) =>
                  (parseFieldsJ f r).map (fun p => ((String.mk kcs, v) :: p.1, p.2))
              | some (v, '}' :: r) => some ([(String.mk kcs, v)], r)
              | _ => none
          | _ => none
      | _ => none
termination_by structural fuel cs => fuel

end

/-- Model of JSON.parse: none models a thrown SyntaxError (including
trailing garbage). -/
def jsonParse (s : String) : Option JVal :=
  match parseVal (s.length + 1) s.toList with
  | some (v, []) => some v
  | _ => none

mutual

/-- A value containing no occurrence of the JS undefined value; stringify
followed by parse is the identity on such values. -/
def jPure : JVal → Bool
  | .undefVal => false
  | .null => true
  | .bool _ => true
  | .num _ => true
  | .str _ => true
  | .arr vs => jPureList vs
  | .obj fs => jPureFields fs
termination_by structural v => v

/-- All elements pure. -/
def jPureList : List JVal → Bool
  | [] => true
  | v :: vs => jPure v && jPureList vs
termination_by structural l => l

/-- All field values pure. -/
def jPureFields : List (String × JVal) → Bool
  | [] => true
  | (_, v) :: fs => jPure v && jPureFields fs
termination_by structural l => l

end

/-- The fields JSON.stringify keeps: those whose value is not undefined. -/
def stripUndefVal (fs : List (String × JVal)) : List (String × JVal) :=
  fs.filter (fun p => !p.2.isUndefVal)

/-- Fuel measure for the reader, keyed to the printed length. -/
def jSize (v : JVal) : Nat :=
  (printJson v).length + 1

/-- Fuel measure for an element list. -/
def jSizeList (vs : List JVal) : Nat :=
  (printElems vs).length + 2

/-- Fuel measure for a field list. -/
def jSizeFields (fs : List (String × JVal)) : Nat :=
  (printFieldsJ fs).length + 2

/-- JS truthiness of a string. -/
def strTruthy (s : String) : Bool :=
  !s.toList.isEmpty

/-- The processingResult state set by handleUpload in DocumentUpload.jsx
(either branch); numeric fields are abstracted to integers. -/
structure ProcessingResult where
  documentId : String
  sessionDocumentId : String
  chunksStored : Int
  extractionInfo : JVal
  documentSize : Int
  processingTime : Int
  processingMode : String

/-- The record navigateToAnalysis in DocumentUpload.jsx stringifies into
the current_document storage key. The document_name field holds
selectedFile?.name, which is the JS undefined value when no file object is
at hand, in which case JSON.stringify drops the field. -/
def currentDocumentRecord (pr : ProcessingResult) (selectedFileName : Option String) : JVal :=
  .obj [("document_id", .str pr.documentId),
        ("document_name", match selectedFileName with | some n => .str n | none => .undefVal),
        ("chunks_count", .num pr.chunksStored),
        ("processed_at", .num pr.processingTime),
        ("extraction_info", pr.extractionInfo),
        ("processing_mode", .str pr.processingMode)]

/-- Embedding of navigateToAnalysis in DocumentUpload.jsx: when a
processing result is present, write the stringified record under the
current_document key; otherwise do nothing. -/
def navigateToAnalysis (pr : Option ProcessingResult) (selectedFileName : Option String)
    (st : Store) : Store :=
  match pr with
  | some p =>
      match jsonStringify (currentDocumentRecord p selectedFileName) with
      | some s => { st with current_document := some s }
      | none => st
  | none => st

/-- Embedding of the document-loading half of initializeComponent in
RagAnalysis.jsx: read the current_document key; when the read is truthy,
JSON.parse it (none also models the catch branch around a parse error),
else report no document. -/
def readCurrentDocument (st : Store) : Option JVal :=
  match st.current_document with
  | some s => if strTruthy s then jsonParse s else none
  | none => none

/-- Does the value start as every wrapper envelope does: an object whose
first field is success with a boolean value. -/
def isEnvelope : JVal → Bool
  | .obj (("success", .bool _) :: _) => true
  | _ => false

/-- Backend script for the C1 counterexample: the wrapped endpoint answers
401 twice, then fulfils. -/
def c1srv : Nat → ApiResult := fun n =>
  if n < 2 then .httpError 401 .undefVal "Request failed with status code 401"
  else .ok (.str "payload")

/-- Session script for the C1 counterexample: createSession always
succeeds with a fresh non-empty token. -/
def c1sess : Nat → Option (String × String) := fun _ =>
  some ("fresh_token", "fresh_session")

/-- Backend script for the C1 witness: one 401, then success. -/
def c1wsrv : Nat → ApiResult := fun n =>
  if n = 0 then .httpError 401 .undefVal "Request failed with status code 401"
  else .ok (.str "done")

/-- A nonempty string is not isEmpty. -/
theorem isEmpty_false_of_ne {d : String} (h : d ≠ "") : d.isEmpty = false := by
  cases he : d.isEmpty
  · rfl
  · exact absurd ((String.isEmpty_iff d).mp he) h

/-- A truthy string wins the logical-or. -/
theorem jsOr_str {d : String} (h : d ≠ "") (b : JVal) : jsOr (.str d) b = .str d := by
  simp [jsOr, jTruthy, isEmpty_false_of_ne h]

/-- Undefined loses the logical-or. -/
theorem jsOr_undefVal (b : JVal) : jsOr .undefVal b = b := rfl

/-- The empty string loses the logical-or. -/
theorem jsOr_str_empty (b : JVal) : jsOr (.str "") b = b := rfl

/-- Every envelope of a plain passthrough wrapper is an envelope. -/
theorem isEnvelope_store (r : ApiResult) : isEnvelope (storeDocumentChunks r) = true := by
  cases r <;> rfl

theorem isEnvelope_risk (r : ApiResult) : isEnvelope (runRiskAnalysis r) = true := by
  cases r <;> rfl

theorem isEnvelope_nego (r : ApiResult) : isEnvelope (runNegotiationAssistant r) = true := by
  cases r <;> rfl

theorem isEnvelope_summary (r : ApiResult) : isEnvelope (runDocumentSummary r) = true := by
  cases r <;> rfl

theorem isEnvelope_rag (r : ApiResult) : isEnvelope (runRagAnalysis r) = true := by
  cases r <;> rfl

theorem isEnvelope_validate (r : ApiResult) : isEnvelope (validateToken r) = true := by
  cases r <;> rfl

theorem isEnvelope_sessionInfo (r : ApiResult) : isEnvelope (getSessionInfo r) = true := by
  cases r <;> rfl

theorem isEnvelope_chat (md : JVal) (r : ApiResult) : isEnvelope (chatWithDocument md r) = true := by
  unfold chatWithDocument
  cases hm : jGetU md "message" <;> try rfl
  case str s =>
    cases r with
    | ok body => cases body <;> rfl
    | httpError status b m => rfl
    | networkError m => rfl

theorem isEnvelope_suggestions (r : ApiResult) : isEnvelope (getChatSuggestions r) = true := by
  cases r with
  | ok body => cases body <;> rfl
  | httpError status b m => rfl
  | networkError m => rfl

theorem isEnvelope_explain (ct : JVal) (r : ApiResult) : isEnvelope (explainLegalClause ct r) = true := by
  cases ct <;> try rfl
  case str s =>
    cases r with
    | ok body => cases body <;> rfl
    | httpError status b m => rfl
    | networkError m => rfl

theorem isEnvelope_health (r : ApiResult) : isEnvelope (getChatbotHealth r) = true := by
  cases r with
  | ok body => cases body <;> rfl
  | httpError status b m => rfl
  | networkError m => rfl

/-- Claim C9: every envelope-returning wrapper of api.js
(storeDocumentChunks, runRiskAnalysis, runNegotiationAssistant,
runDocumentSummary, chatWithDocument, getChatSuggestions,
explainLegalClause, getChatbotHealth, runRagAnalysis, validateToken,
getSessionInfo) is total at its interface: for every input and every
backend outcome (fulfilled response of any body, HTTP error, network
failure or timeout, and even a TypeError thrown inside its own try block)
it resolves to an object whose first field is a boolean success flag and
never rejects to its caller; the embedding makes each wrapper a total
function into envelope objects, and this theorem checks the boolean
success field on every path. -/
theorem claim_C9_wrappers_total :
    ∀ (r : ApiResult) (messageData clauseText : JVal),
      isEnvelope (storeDocumentChunks r) = true ∧
      isEnvelope (runRiskAnalysis r) = true ∧
      isEnvelope (runNegotiationAssistant r) = true ∧
      isEnvelope (runDocumentSummary r) = true ∧
      isEnvelope (chatWithDocument messageData r) = true ∧
      isEnvelope (getChatSuggestions r) = true ∧
      isEnvelope (explainLegalClause clauseText r) = true ∧
      isEnvelope (getChatbotHealth r) = true ∧
      isEnvelope (runRagAnalysis r) = true ∧
      isEnvelope (validateToken r) = true ∧
      isEnvelope (getSessionInfo r) = true :=
  fun r md ct =>
    ⟨isEnvelope_store r, isEnvelope_risk r, isEnvelope_nego r, isEnvelope_summary r,
     isEnvelope_chat md r, isEnvelope_suggestions r, isEnvelope_explain ct r,
     isEnvelope_health r, isEnvelope_rag r, isEnvelope_validate r, isEnvelope_sessionInfo r⟩

/-- Claim C2 counterexample: on a fulfilled chatbot response whose body
carries an extra field, chatWithDocument succeeds but its data value is a
rebuilt object that drops the field — the body field names are not passed
through unchanged. -/
theorem claim_C2_counterexample :
    jGet (.obj [("response", .str "answer"), ("extra_field", .str "keep")]) "extra_field" =
      some (.str "keep") ∧
    jGetB (chatWithDocument (.obj [("message", .str "hi"), ("document_id", .str "doc1")])
      (.ok (.obj [("response", .str "answer"), ("extra_field", .str "keep")]))) "success" =
      some true ∧
    jGet (jGetU (chatWithDocument (.obj [("message", .str "hi"), ("document_id", .str "doc1")])
      (.ok (.obj [("response", .str "answer"), ("extra_field", .str "keep")]))) "data")
      "extra_field" = none :=
  ⟨rfl, rfl, rfl⟩

/-- Claim C2 as amended: the plain wrappers (storeDocumentChunks,
runRiskAnalysis, runNegotiationAssistant, runDocumentSummary,
runRagAnalysis, validateToken, getSessionInfo) return success true with
the response body passed through unchanged as data; chatWithDocument
instead rebuilds data as an object with exactly the seven fixed field
names response, sources, conversation_id, timestamp, context_used,
model_used, confidence_score, whatever fields the body has. -/
theorem claim_C2_amended :
    (∀ body : JVal,
       jGet (storeDocumentChunks (.ok body)) "data" = some body ∧
       jGet (runRiskAnalysis (.ok body)) "data" = some body ∧
       jGet (runNegotiationAssistant (.ok body)) "data" = some body ∧
       jGet (runDocumentSummary (.ok body)) "data" = some body ∧
       jGet (runRagAnalysis (.ok body)) "data" = some body ∧
       jGet (validateToken (.ok body)) "data" = some body ∧
       jGet (getSessionInfo (.ok body)) "data" = some body) ∧
    (∀ (m : String) (doc : JVal) (fields : List (String × JVal)),
       fieldNames (jGetU (chatWithDocument (.obj [("message", .str m), ("document_id", doc)])
           (.ok (.obj fields))) "data") =
         ["response", "sources", "conversation_id", "timestamp",
          "context_used", "model_used", "confidence_score"]) :=
  ⟨fun _ => ⟨rfl, rfl, rfl, rfl, rfl, rfl, rfl⟩, fun _ _ _ => rfl⟩

/-- Claim C3 counterexample: on an HTTP failure whose body has no detail
field, runRiskAnalysis does not return its generic per-function message;
it returns the transport error message. -/
theorem claim_C3_counterexample :
    jGet (.obj [("status_code", .num 500)]) "detail" = none ∧
    jGetS (runRiskAnalysis
        (.httpError 500 (.obj [("status_code", .num 500)]) "Request failed with status code 500"))
      "error" = some "Request failed with status code 500" ∧
    "Request failed with status code 500" ≠ "Risk analysis failed" := by
  refine ⟨rfl, rfl, ?_⟩
  decide

/-- Claim C3 as amended: on a failing response whose body carries a truthy
(non-empty string) detail field, the returned error equals it; when detail
is absent, wrappers whose chain stops at the generic text (here
storeDocumentChunks) return their per-function message, while the analysis
wrappers (here runRiskAnalysis) first fall back to the transport error
message and reach their per-function generic text only when that message
is empty. -/
theorem claim_C3_amended :
    (∀ (status : Nat) (body : JVal) (m d : String),
       jGet body "detail" = some (.str d) → d ≠ "" →
       jGetS (storeDocumentChunks (.httpError status body m)) "error" = some d ∧
       jGetS (runRiskAnalysis (.httpError status body m)) "error" = some d) ∧
    (∀ (status : Nat) (body : JVal) (m : String),
       jGet body "detail" = none →
       jGetS (storeDocumentChunks (.httpError status body m)) "error" =
         some "Failed to store document" ∧
       (m ≠ "" → jGetS (runRiskAnalysis (.httpError status body m)) "error" = some m)) ∧
    (∀ m : String,
       jGetS (storeDocumentChunks (.networkError m)) "error" = some "Failed to store document" ∧
       (m ≠ "" → jGetS (runRiskAnalysis (.networkError m)) "error" = some m)) ∧
    (∀ (status : Nat) (body : JVal),
       jGet body "detail" = none →
       jGetS (runRiskAnalysis (.httpError status body "")) "error" = some "Risk analysis failed") := by
  refine ⟨?_, ?_, ?_, ?_⟩
  · intro status body m d hd hne
    have hdet : jGetU body "detail" = .str d := by rw [jGetU, hd]; rfl
    constructor
    · simp [storeDocumentChunks, errDetail, hdet, jsOr_str hne, jGetS, jGet, lookupField]
    · simp [runRiskAnalysis, errDetail, hdet, jsOr_str hne, jGetS, jGet, lookupField]
  · intro status body m hd
    have hdet : jGetU body "detail" = .undefVal := by rw [jGetU, hd]; rfl
    constructor
    · simp [storeDocumentChunks, errDetail, hdet, jsOr_undefVal, jGetS, jGet, lookupField]
    · intro hm
      simp [runRiskAnalysis, errDetail, errMessage, hdet, jsOr_undefVal, jsOr_str hm,
            jGetS, jGet, lookupField]
  · intro m
    constructor
    · rfl
    · intro hm
      simp [runRiskAnalysis, errDetail, errMessage, jsOr_undefVal, jsOr_str hm,
            jGetS, jGet, lookupField]
  · intro status body hd
    have hdet : jGetU body "detail" = .undefVal := by rw [jGetU, hd]; rfl
    simp [runRiskAnalysis, errDetail, errMessage, hdet, jsOr_undefVal, jsOr_str_empty,
          jGetS, jGet, lookupField]

/-- Claim C3 amended, witnessed at a concrete failing response with a
truthy detail field. -/
theorem claim_C3_amended_witness :
    jGetS (storeDocumentChunks
        (.httpError 422 (.obj [("detail", .str "Document not found")]) "m")) "error" =
      some "Document not found" ∧
    jGetS (runRiskAnalysis
        (.httpError 422 (.obj [("detail", .str "Document not found")]) "m")) "error" =
      some "Document not found" :=
  claim_C3_amended.1 422 (.obj [("detail", .str "Document not found")]) "m"
    "Document not found" rfl (by decide)

/-- Claim C5: on every failure of the suggestions call (HTTP error of any
status and body, or network failure), getChatSuggestions returns success
false together with exactly the five hard-coded default questions in their
hard-coded order. -/
theorem claim_C5_suggestions_fallback :
    ∀ (status : Nat) (body : JVal) (m : String),
      (jGetB (getChatSuggestions (.httpError status body m)) "success" = some false ∧
       jGet (getChatSuggestions (.httpError status body m)) "suggestions" =
         some (.arr [.str "What are the key terms in this document?",
                     .str "What are the main obligations?",
                     .str "Are there any risks I should know about?",
                     .str "What are the payment terms?",
                     .str "What are the termination conditions?"])) ∧
      (jGetB (getChatSuggestions (.networkError m)) "success" = some false ∧
       jGet (getChatSuggestions (.networkError m)) "suggestions" =
         some (.arr [.str "What are the key terms in this document?",
                     .str "What are the main obligations?",
                     .str "Are there any risks I should know about?",
                     .str "What are the payment terms?",
                     .str "What are the termination conditions?"])) :=
  fun _ _ _ => ⟨⟨rfl, rfl⟩, ⟨rfl, rfl⟩⟩

/-- Claim C10: on an HTTP-successful suggestions response whose object
body lacks the suggested_questions field, getChatSuggestions returns
success true with the empty suggestions list, not the defaults. -/
theorem claim_C10_empty_suggestions :
    ∀ fields : List (String × JVal),
      lookupField "suggested_questions" fields = none →
      jGetB (getChatSuggestions (.ok (.obj fields))) "success" = some true ∧
      jGet (getChatSuggestions (.ok (.obj fields))) "suggestions" = some (.arr []) := by
  intro fields h
  have h2 : jGetU (.obj fields) "suggested_questions" = .undefVal := by
    simp [jGetU, jGet, h]
  constructor
  · rfl
  · simp [getChatSuggestions, JVal.isNullish, h2, jsOr_undefVal, jGet, lookupField, jGetB]

/-- Claim C10 witnessed at a concrete body without the field. -/
theorem claim_C10_empty_suggestions_witness :
    jGetB (getChatSuggestions (.ok (.obj [("category", .str "legal")]))) "success" = some true ∧
    jGet (getChatSuggestions (.ok (.obj [("category", .str "legal")]))) "suggestions" =
      some (.arr []) :=
  claim_C10_empty_suggestions [("category", .str "legal")] rfl

/-- Setting a header makes it readable. -/
theorem getHeader_setHeader (k v : String) (hs : List (String × String)) :
    getHeader k (setHeader k v hs) = some v := by
  simp [getHeader, setHeader, List.find?]

/-- Claim C6 counterexample: with the empty string stored as the token —
a token present in storage — the request interceptor attaches no
Authorization header, because the JS truthiness test treats the empty
string as absent. -/
theorem claim_C6_counterexample :
    (Store.mk (some "") none none).access_token ≠ none ∧
    getHeader "Authorization"
      (requestInterceptor (Store.mk (some "") none none) defaultHeaders) = none := by
  constructor
  · simp
  · rfl

/-- Claim C6 as amended: when no token is in storage, or the stored token
is the empty string (falsy), the interceptor leaves the config untouched
and no Authorization header is attached; when a non-empty token is stored
it is attached as a bearer credential. -/
theorem claim_C6_amended :
    (∀ (sid cd : Option String) (hs : List (String × String)),
       getHeader "Authorization" hs = none →
       getHeader "Authorization" (requestInterceptor (Store.mk none sid cd) hs) = none ∧
       getHeader "Authorization" (requestInterceptor (Store.mk (some "") sid cd) hs) = none) ∧
    (∀ (t : String) (sid cd : Option String) (hs : List (String × String)),
       t ≠ "" →
       getHeader "Authorization" (requestInterceptor (Store.mk (some t) sid cd) hs) =
         some ("Bearer " ++ t)) := by
  constructor
  · intro sid cd hs h
    exact ⟨h, h⟩
  · intro t sid cd hs ht
    simp [requestInterceptor, isEmpty_false_of_ne ht, getHeader_setHeader]

/-- Claim C6 amended, witnessed at a concrete non-empty token over the
default headers. -/
theorem claim_C6_amended_witness :
    getHeader "Authorization"
      (requestInterceptor (Store.mk (some "tok123") none none) defaultHeaders) =
      some ("Bearer " ++ "tok123") :=
  claim_C6_amended.2 "tok123" none none defaultHeaders (by decide)

/-- Claim C7 counterexample: a failing createSession response whose body
carries a detail field with the empty-string value throws the generic
message, not the detail value — the source uses the falsy-sensitive
logical-or, not a presence test. -/
theorem claim_C7_counterexample :
    jGet (.obj [("detail", .str "")]) "detail" = some (.str "") ∧
    createSession (Store.mk none none none)
        (.httpError 500 (.obj [("detail", .str "")]) "boom") =
      (Store.mk none none none, .error "Failed to create session") ∧
    "Failed to create session" ≠ "" := by
  refine ⟨rfl, rfl, by decide⟩

/-- Claim C7 as amended: createSession POSTs the client-identifier payload
to /auth/create-session; on a success whose body carries string
access_token and session_id fields it persists both to storage and returns
them; a fulfilled response whose body is null or undefined also fails (the
destructuring of response.data throws, and the TypeError has no response
field) with the generic message; on an HTTP or network failure it throws
an error whose message is the body detail field when that field is present
and truthy (a non-empty string), else the generic failure message; and in
every failure case storage is unchanged. -/
theorem claim_C7_amended :
    createSessionRequest = ("/auth/create-session", .obj [("client_info", .str "web_client")]) ∧
    (∀ (st : Store) (body : JVal) (t s : String),
       jGet body "access_token" = some (.str t) → jGet body "session_id" = some (.str s) →
       createSession st (.ok body) =
         ({ st with access_token := some t, session_id := some s }, .ok (.str t, .str s))) ∧
    (∀ st : Store,
       createSession st (.ok .null) = (st, .error "Failed to create session") ∧
       createSession st (.ok .undefVal) = (st, .error "Failed to create session")) ∧
    (∀ (st : Store) (status : Nat) (body : JVal) (m d : String),
       jGet body "detail" = some (.str d) → d ≠ "" →
       createSession st (.httpError status body m) = (st, .error d)) ∧
    (∀ (st : Store) (status : Nat) (body : JVal) (m : String),
       jGet body "detail" = none →
       createSession st (.httpError status body m) = (st, .error "Failed to create session")) ∧
    (∀ (st : Store) (m : String),
       createSession st (.networkError m) = (st, .error "Failed to create session")) := by
  refine ⟨rfl, ?_, fun st => ⟨rfl, rfl⟩, ?_, ?_, ?_⟩
  · intro st body t s ht hs
    have hnn : body.isNullish = false := by
      cases body <;> first | rfl | simp [jGet] at ht
    have h1 : jGetU body "access_token" = .str t := by rw [jGetU, ht]; rfl
    have h2 : jGetU body "session_id" = .str s := by rw [jGetU, hs]; rfl
    simp [createSession, hnn, h1, h2, jsToString]
  · intro st status body m d hd hne
    have hdet : jGetU body "detail" = .str d := by rw [jGetU, hd]; rfl
    simp [createSession, errDetail, hdet, jsOr_str hne, jsToString]
  · intro st status body m hd
    have hdet : jGetU body "detail" = .undefVal := by rw [jGetU, hd]; rfl
    simp [createSession, errDetail, hdet, jsOr_undefVal, jsToString]
  · intro st m
    rfl

/-- Claim C7 amended, witnessed at a concrete success body. -/
theorem claim_C7_amended_witness :
    createSession (Store.mk none none none)
        (.ok (.obj [("access_token", .str "tokA"), ("session_id", .str "sess1")])) =
      (Store.mk (some "tokA") (some "sess1") none, .ok (.str "tokA", .str "sess1")) :=
  claim_C7_amended.2.1 (Store.mk none none none)
    (.obj [("access_token", .str "tokA"), ("session_id", .str "sess1")]) "tokA" "sess1" rfl rfl

/-- Interceptor step: a fulfilled response passes through. -/
theorem runApi_step_ok {fuel : Nat} {st : Store} {srv : Nat → ApiResult}
    {sess : Nat → Option (String × String)} {a c : Nat} {body : JVal}
    (hsrv : srv a = .ok body) :
    runApi (fuel + 1) st srv sess a c = ⟨.ok body, st, c, a + 1⟩ := by
  simp only [runApi, hsrv]

/-- Interceptor step: on a 401 with a successful refresh yielding a
non-empty token, the original request is replayed through the same
pipeline with the refreshed storage. -/
theorem runApi_step_401_refresh {fuel : Nat} {st : Store} {srv : Nat → ApiResult}
    {sess : Nat → Option (String × String)} {a c : Nat} {b : JVal} {m t s : String}
    (hsrv : srv a = .httpError 401 b m) (hsess : sess c = some (t, s))
    (ht : t.isEmpty = false) :
    runApi (fuel + 1) st srv sess a c =
      runApi fuel { st with access_token := some t, session_id := some s }
        srv sess (a + 1) (c + 1) := by
  simp [runApi, hsrv, hsess, ht]

/-- Interceptor step: on a 401 whose refresh throws, the original 401
propagates after the single createSession attempt, the token deleted. -/
theorem runApi_step_401_sessfail {fuel : Nat} {st : Store} {srv : Nat → ApiResult}
    {sess : Nat → Option (String × String)} {a c : Nat} {b : JVal} {m : String}
    (hsrv : srv a = .httpError 401 b m) (hsess : sess c = none) :
    runApi (fuel + 1) st srv sess a c =
      ⟨.httpError 401 b m, { st with access_token := none }, c + 1, a + 1⟩ := by
  simp [runApi, hsrv, hsess]

/-- With k consecutive 401 answers followed by a fulfilled one, and a
refresh that always succeeds with a non-empty token, the pipeline performs
k createSession calls and k+1 attempts and settles fulfilled. -/
theorem runApi_after_401s :
    ∀ (k fuel : Nat) (st : Store) (srv : Nat → ApiResult)
      (sess : Nat → Option (String × String)) (a c : Nat) (body : JVal),
      (∀ i, i < k → ∃ b m, srv (a + i) = .httpError 401 b m) →
      srv (a + k) = .ok body →
      (∀ j, ∃ t s, sess j = some (t, s) ∧ t.isEmpty = false) →
      k < fuel →
      (runApi fuel st srv sess a c).result = .ok body ∧
      (runApi fuel st srv sess a c).sessionCalls = c + k ∧
      (runApi fuel st srv sess a c).attempts = a + k + 1 := by
  intro k
  induction k with
  | zero =>
    intro fuel st srv sess a c body h401 hok hsess hf
    obtain ⟨f, rfl⟩ : ∃ f, fuel = f + 1 := ⟨fuel - 1, by omega⟩
    rw [runApi_step_ok (by simpa using hok)]
    exact ⟨rfl, rfl, rfl⟩
  | succ k ih =>
    intro fuel st srv sess a c body h401 hok hsess hf
    obtain ⟨f, rfl⟩ : ∃ f, fuel = f + 1 := ⟨fuel - 1, by omega⟩
    obtain ⟨b, m, h0⟩ := h401 0 (by omega)
    obtain ⟨t, s, hs0, ht⟩ := hsess c
    rw [runApi_step_401_refresh (by simpa using h0) hs0 ht]
    have h401m : ∀ i, i < k → ∃ b2 m2, srv (a + 1 + i) = .httpError 401 b2 m2 := by
      intro i hi
      have h := h401 (i + 1) (by omega)
      rwa [show a + (i + 1) = a + 1 + i by omega] at h
    have hokm : srv (a + 1 + k) = .ok body := by
      rwa [show a + (k + 1) = a + 1 + k by omega] at hok
    obtain ⟨hr, hc, ha⟩ := ih f _ srv sess (a + 1) (c + 1) body h401m hokm hsess (by omega)
    refine ⟨hr, ?_, ?_⟩
    · rw [hc]; omega
    · rw [ha]; omega

/-- Claim C1 counterexample: with a backend that answers 401 to the first
two attempts and fulfils the third, and a createSession that succeeds,
the wrapped call performs two session refreshes and three attempts and
settles fulfilled — not one refresh, one replay and a propagated failure. -/
theorem claim_C1_counterexample :
    (runRequest 10 (Store.mk (some "stale") (some "sid") none) c1srv c1sess).sessionCalls = 2 ∧
    (runRequest 10 (Store.mk (some "stale") (some "sid") none) c1srv c1sess).attempts = 3 ∧
    (runRequest 10 (Store.mk (some "stale") (some "sid") none) c1srv c1sess).result =
      .ok (.str "payload") :=
  ⟨rfl, rfl, rfl⟩

/-- Claim C1 as amended: on a 401 the interceptor deletes the stored
token, invokes createSession once and replays the original request once;
but the replay passes through the same interceptor, so each consecutive
401 triggers a further refresh and replay (k 401s before a success give
exactly k createSession calls and k+1 attempts), and a 401 propagates to
the caller as a failure precisely in the runs where createSession throws
(one refresh attempt, no replay, token left deleted). There is no
retry-once guard. -/
theorem claim_C1_amended :
    (∀ (fuel : Nat) (st : Store) (srv : Nat → ApiResult)
       (sess : Nat → Option (String × String)) (body : JVal) (msg : String),
       0 < fuel → srv 0 = .httpError 401 body msg → sess 0 = none →
       runRequest fuel st srv sess =
         ⟨.httpError 401 body msg, { st with access_token := none }, 1, 1⟩) ∧
    (∀ (k fuel : Nat) (st : Store) (srv : Nat → ApiResult)
       (sess : Nat → Option (String × String)) (body : JVal),
       (∀ i, i < k → ∃ b m, srv i = .httpError 401 b m) →
       srv k = .ok body →
       (∀ j, ∃ t s, sess j = some (t, s) ∧ t.isEmpty = false) →
       k < fuel →
       (runRequest fuel st srv sess).result = .ok body ∧
       (runRequest fuel st srv sess).sessionCalls = k ∧
       (runRequest fuel st srv sess).attempts = k + 1) := by
  constructor
  · intro fuel st srv sess body msg hf h0 hsess
    obtain ⟨f, rfl⟩ : ∃ f, fuel = f + 1 := ⟨fuel - 1, by omega⟩
    rw [runRequest, runApi_step_401_sessfail h0 hsess]
  · intro k fuel st srv sess body h401 hok hsess hf
    have h401a : ∀ i, i < k → ∃ b m, srv (0 + i) = .httpError 401 b m := by
      intro i hi
      simpa using h401 i hi
    have hoka : srv (0 + k) = .ok body := by simpa using hok
    have := runApi_after_401s k fuel st srv sess 0 0 body h401a hoka hsess hf
    simpa [runRequest] using this

/-- Claim C1 amended, witnessed at one 401 followed by success. -/
theorem claim_C1_amended_witness :
    (runRequest 5 (Store.mk (some "stale") none none) c1wsrv c1sess).result = .ok (.str "done") ∧
    (runRequest 5 (Store.mk (some "stale") none none) c1wsrv c1sess).sessionCalls = 1 ∧
    (runRequest 5 (Store.mk (some "stale") none none) c1wsrv c1sess).attempts = 2 :=
  claim_C1_amended.2 1 5 (Store.mk (some "stale") none none) c1wsrv c1sess (.str "done")
    (fun i hi => ⟨.undefVal, "Request failed with status code 401", by
      have hi0 : i = 0 := by omega
      subst hi0; rfl⟩)
    rfl
    (fun _ => ⟨"fresh_token", "fresh_session", rfl, rfl⟩)
    (by omega)

/-- Claim C4 counterexample: the question containing none of the three
claimed substrings (risk, summary, negotiat) is still routed to the risk
branch, because the source condition also matches the synonyms danger and
problem — the claimed default branch is not taken. -/
theorem claim_C4_counterexample :
    simulateChatRoute "Any danger here?" = .riskAnalysis ∧
    strIncludes (jsToLower "Any danger here?") "risk" = false ∧
    strIncludes (jsToLower "Any danger here?") "summary" = false ∧
    strIncludes (jsToLower "Any danger here?") "negotiat" = false ∧
    ChatRoute.riskAnalysis ≠ ChatRoute.generalSummary := by
  refine ⟨rfl, rfl, rfl, rfl, by decide⟩

/-- Claim C4 as amended: the simulated-chat dispatcher lowercases the
question and tests three synonym-set conditions in fixed source order —
risk, danger or problem route to runRiskAnalysis; else summary, summarize
or overview route to runDocumentSummary; else negotiat, terms or clause
route to runNegotiationAssistant; a question matching none takes the
default branch (which itself invokes runDocumentSummary inside a generic
reply). A question matching several sets goes to the first matching
branch. -/
theorem claim_C4_amended :
    (∀ q : String,
       (strIncludes (jsToLower q) "risk" || strIncludes (jsToLower q) "danger" ||
         strIncludes (jsToLower q) "problem") = true →
       simulateChatRoute q = .riskAnalysis) ∧
    (∀ q : String,
       (strIncludes (jsToLower q) "risk" || strIncludes (jsToLower q) "danger" ||
         strIncludes (jsToLower q) "problem") = false →
       (strIncludes (jsToLower q) "summary" || strIncludes (jsToLower q) "summarize" ||
         strIncludes (jsToLower q) "overview") = true →
       simulateChatRoute q = .documentSummary) ∧
    (∀ q : String,
       (strIncludes (jsToLower q) "risk" || strIncludes (jsToLower q) "danger" ||
         strIncludes (jsToLower q) "problem") = false →
       (strIncludes (jsToLower q) "summary" || strIncludes (jsToLower q) "summarize" ||
         strIncludes (jsToLower q) "overview") = false →
       (strIncludes (jsToLower q) "negotiat" || strIncludes (jsToLower q) "terms" ||
         strIncludes (jsToLower q) "clause") = true →
       simulateChatRoute q = .negotiationAssistant) ∧
    (∀ q : String,
       (strIncludes (jsToLower q) "risk" || strIncludes (jsToLower q) "danger" ||
         strIncludes (jsToLower q) "problem") = false →
       (strIncludes (jsToLower q) "summary" || strIncludes (jsToLower q) "summarize" ||
         strIncludes (jsToLower q) "overview") = false →
       (strIncludes (jsToLower q) "negotiat" || strIncludes (jsToLower q) "terms" ||
         strIncludes (jsToLower q) "clause") = false →
       simulateChatRoute q = .generalSummary) := by
  refine ⟨?_, ?_, ?_, ?_⟩
  · intro q h1
    simp [simulateChatRoute, h1]
  · intro q h1 h2
    simp [simulateChatRoute, h1, h2]
  · intro q h1 h2 h3
    simp [simulateChatRoute, h1, h2, h3]
  · intro q h1 h2 h3
    simp [simulateChatRoute, h1, h2, h3]

/-- Claim C4 amended, witnessed on a question matching the first branch. -/
theorem claim_C4_amended_witness :
    simulateChatRoute "What are the risks in this contract?" = .riskAnalysis :=
  claim_C4_amended.1 "What are the risks in this contract?" rfl

/-- Rebuilding a string from its character list is the identity. -/
theorem strMkToList (s : String) : String.mk s.toList = s := rfl


/-- The reader of string-literal bodies inverts the escape printer. -/
theorem parseStringLit_esc (l rest : List Char) :
    parseStringLit (escChars l ++ '"' :: rest) = some (l, rest) := by
  induction l with
  | nil =>
    simp only [escChars, List.nil_append]
    rw [parseStringLit.eq_def]
    simp
  | cons c cs ih =>
    by_cases h : c = '"' ∨ c = '\\'
    · simp only [escChars, if_pos h, List.cons_append]
      rw [parseStringLit.eq_def]
      simp [parseStringEsc, ih]
    · have h1 : ¬ c = '"' := fun hc => h (Or.inl hc)
      have h2 : ¬ c = '\\' := fun hc => h (Or.inr hc)
      simp only [escChars, if_neg h, List.cons_append]
      rw [parseStringLit.eq_def]
      simp [h1, h2, ih]

/-- Digit characters decode to their digit. -/
theorem digitVal_digitChar {d : Nat} (hd : d < 10) : digitVal (Nat.digitChar d) = d := by
  interval_cases d <;> rfl

/-- Digit characters are digits. -/
theorem isDigit_digitChar {d : Nat} (hd : d < 10) : (Nat.digitChar d).isDigit = true := by
  interval_cases d <;> rfl

/-- Every character the fuel-bounded decimal printer emits is a digit. -/
theorem printNatAux_all_digits :
    ∀ fuel n : Nat, ∀ c ∈ printNatAux fuel n, c.isDigit = true := by
  intro fuel
  induction fuel with
  | zero => intro n c hc; simp [printNatAux] at hc
  | succ f ih =>
    intro n c hc
    by_cases h0 : n = 0
    · simp [printNatAux, h0] at hc
    · simp only [printNatAux, h0, if_false, List.mem_append, List.mem_singleton] at hc
      rcases hc with hc | hc
      · exact ih _ c hc
      · subst hc; exact isDigit_digitChar (Nat.mod_lt n (by norm_num))

/-- The printer emits something for a positive number with enough fuel. -/
theorem printNatAux_ne_nil {fuel n : Nat} (h : n ≠ 0) (hf : 1 ≤ fuel) :
    printNatAux fuel n ≠ [] := by
  obtain ⟨f, rfl⟩ : ∃ f, fuel = f + 1 := ⟨fuel - 1, by omega⟩
  simp [printNatAux, h]

/-- Every character the decimal printer emits is a digit. -/
theorem printNatChars_all_digits (n : Nat) : ∀ c ∈ printNatChars n, c.isDigit = true := by
  intro c hc
  unfold printNatChars at hc
  by_cases h0 : n = 0
  · simp [h0] at hc; subst hc; rfl
  · rw [if_pos h0] at hc
    exact printNatAux_all_digits n n c hc

/-- The decimal printer emits at least one character. -/
theorem printNatChars_ne_nil (n : Nat) : printNatChars n ≠ [] := by
  unfold printNatChars
  by_cases h0 : n = 0
  · simp [h0]
  · rw [if_pos h0]
    exact printNatAux_ne_nil h0 (by omega)

/-- Folding the emitted digits of the fuel-bounded printer recomputes the
number. -/
theorem printNatAux_fold :
    ∀ fuel n : Nat, n ≤ fuel →
      (printNatAux fuel n).foldl (fun a c => 10 * a + digitVal c) 0 = n := by
  intro fuel
  induction fuel with
  | zero =>
    intro n h
    have h0 : n = 0 := by omega
    subst h0; rfl
  | succ f ih =>
    intro n h
    by_cases h0 : n = 0
    · subst h0; simp [printNatAux]
    · simp only [printNatAux, h0, if_false]
      rw [List.foldl_append]
      rw [ih (n / 10) (by omega)]
      simp only [List.foldl_cons, List.foldl_nil]
      rw [digitVal_digitChar (Nat.mod_lt n (by norm_num))]
      omega

/-- Folding the emitted digits recomputes the number. -/
theorem printNatChars_fold (n : Nat) :
    (printNatChars n).foldl (fun a c => 10 * a + digitVal c) 0 = n := by
  unfold printNatChars
  by_cases h0 : n = 0
  · subst h0; rfl
  · rw [if_pos h0]
    exact printNatAux_fold n n le_rfl

/-- Taking digits from an all-digit prefix passes it through. -/
theorem takeWhile_append_all {p : Char → Bool} :
    ∀ l r : List Char, (∀ c ∈ l, p c = true) →
      (l ++ r).takeWhile p = l ++ r.takeWhile p ∧ (l ++ r).dropWhile p = r.dropWhile p := by
  intro l
  induction l with
  | nil => intro r _; simp
  | cons c cs ih =>
    intro r h
    have hc : p c = true := h c (List.mem_cons_self c cs)
    obtain ⟨h1, h2⟩ := ih r (fun x hx => h x (List.mem_cons_of_mem c hx))
    simp [List.takeWhile_cons, List.dropWhile_cons, hc, h1, h2]

/-- A list whose head fails the test yields nothing to takeWhile. -/
theorem takeWhile_head_none {p : Char → Bool} (r : List Char)
    (hr : ∀ c, r.head? = some c → p c = false) :
    r.takeWhile p = [] ∧ r.dropWhile p = r := by
  cases r with
  | nil => simp
  | cons c cs =>
    have := hr c rfl
    simp [List.takeWhile_cons, List.dropWhile_cons, this]

/-- The number reader inverts the decimal printer when the remainder does
not begin with a digit. -/
theorem parseNatChars_print (n : Nat) (rest : List Char)
    (hrest : ∀ c, rest.head? = some c → c.isDigit = false) :
    parseNatChars (printNatChars n ++ rest) = some (n, rest) := by
  obtain ⟨ht, hd⟩ := takeWhile_append_all (printNatChars n) rest (printNatChars_all_digits n)
  obtain ⟨ht2, hd2⟩ := takeWhile_head_none rest hrest
  have hne : (printNatChars n).isEmpty = false := by
    cases h : printNatChars n with
    | nil => exact absurd h (printNatChars_ne_nil n)
    | cons c cs => rfl
  simp only [parseNatChars, ht, ht2, hd, hd2, List.append_nil, hne,
    Bool.false_eq_true, if_false]
  rw [printNatChars_fold]

/-- Pure values are not the undefined value. -/
theorem jPure_not_undefVal {v : JVal} (h : jPure v = true) : v.isUndefVal = false := by
  cases v <;> first | rfl | exact absurd h (by decide)

/-- A one-element list prints as its element when it is not undefined. -/
theorem printElems_one {v : JVal} (h : v.isUndefVal = false) :
    printElems [v] = printJson v := by
  cases v <;> first | rfl | exact absurd h (by decide)

/-- A longer list prints its head followed by a comma. -/
theorem printElems_cons {v : JVal} (h : v.isUndefVal = false) (w : JVal) (vs : List JVal) :
    printElems (v :: w :: vs) = printJson v ++ ',' :: printElems (w :: vs) := by
  cases v <;> first | rfl | exact absurd h (by decide)

/-- A field with an undefined value is dropped by the printer. -/
theorem printFieldsJ_cons_drop (k : String) (fs : List (String × JVal)) :
    printFieldsJ ((k, .undefVal) :: fs) = printFieldsJ fs := rfl

/-- A field with a defined value prints key, colon, value and a comma when
a printable field follows. -/
theorem printFieldsJ_cons {v : JVal} (h : v.isUndefVal = false) (k : String)
    (fs : List (String × JVal)) :
    printFieldsJ ((k, v) :: fs) =
      ('"' :: (escChars k.toList ++ ['"', ':'])) ++ printJson v ++
        (if hasMoreFields fs then ',' :: printFieldsJ fs else printFieldsJ fs) := by
  cases v <;> first | rfl | exact absurd h (by decide)

/-- Dropping an undefined field from the kept-field list. -/
theorem stripUndefVal_cons_drop (k : String) (fs : List (String × JVal)) :
    stripUndefVal ((k, .undefVal) :: fs) = stripUndefVal fs := rfl

/-- Keeping a defined field in the kept-field list. -/
theorem stripUndefVal_cons {k : String} {v : JVal} (h : v.isUndefVal = false)
    (fs : List (String × JVal)) :
    stripUndefVal ((k, v) :: fs) = (k, v) :: stripUndefVal fs := by
  simp [stripUndefVal, List.filter_cons, h]

/-- A field list with no printable field prints nothing and keeps
nothing. -/
theorem hasMoreFields_false {fs : List (String × JVal)} (h : hasMoreFields fs = false) :
    printFieldsJ fs = [] ∧ stripUndefVal fs = [] := by
  induction fs with
  | nil => exact ⟨rfl, rfl⟩
  | cons p fs ih =>
    obtain ⟨k, v⟩ := p
    simp only [hasMoreFields, List.any_cons, Bool.or_eq_false_iff] at h
    obtain ⟨h1, h2⟩ := h
    have hv : v = .undefVal := by
      cases v <;> simp_all [JVal.isUndefVal]
    subst hv
    obtain ⟨ih1, ih2⟩ := ih h2
    exact ⟨by rw [printFieldsJ_cons_drop, ih1], by rw [stripUndefVal_cons_drop, ih2]⟩

/-- Pure field lists are kept whole. -/
theorem stripUndefVal_pure {fs : List (String × JVal)} (h : jPureFields fs = true) :
    stripUndefVal fs = fs := by
  induction fs with
  | nil => rfl
  | cons p fs ih =>
    obtain ⟨k, v⟩ := p
    simp only [jPureFields, Bool.and_eq_true] at h
    rw [stripUndefVal_cons (jPure_not_undefVal h.1), ih h.2]

/-- Pure field lists satisfy the per-field condition of the reader
theorem. -/
theorem fieldsOk_of_pure {fs : List (String × JVal)} (h : jPureFields fs = true) :
    ∀ p ∈ fs, p.2.isUndefVal = true ∨ jPure p.2 = true := by
  induction fs with
  | nil => intro p hp; simp at hp
  | cons q fs ih =>
    intro p hp
    obtain ⟨k, v⟩ := q
    simp only [jPureFields, Bool.and_eq_true] at h
    rcases List.mem_cons.mp hp with rfl | hp2
    · exact Or.inr h.1
    · exact ih h.2 p hp2

/-- A cons field list with a defined head has a printable field. -/
theorem hasMoreFields_cons {k : String} {v : JVal} (h : v.isUndefVal = false)
    (fs : List (String × JVal)) :
    hasMoreFields ((k, v) :: fs) = true := by
  simp [hasMoreFields, h]

/-- The printer output of a pure value begins with a character that is
neither a closing bracket nor a closing brace. -/
theorem printJson_head {v : JVal} (h : jPure v = true) :
    ∃ c cs, printJson v = c :: cs ∧ c ≠ ']' ∧ c ≠ '}' := by
  cases v with
  | undefVal => exact absurd h (by decide)
  | null => exact ⟨'n', ['u', 'l', 'l'], rfl, by decide, by decide⟩
  | bool b =>
    cases b with
    | false => exact ⟨'f', ['a', 'l', 's', 'e'], rfl, by decide, by decide⟩
    | true => exact ⟨'t', ['r', 'u', 'e'], rfl, by decide, by decide⟩
  | num n =>
    cases n with
    | ofNat m =>
      cases hpc : printNatChars m with
      | nil => exact absurd hpc (printNatChars_ne_nil m)
      | cons c cs =>
        have hc : c.isDigit = true :=
          printNatChars_all_digits m c (by rw [hpc]; exact List.mem_cons_self c cs)
        refine ⟨c, cs, ?_, ?_, ?_⟩
        · show printIntChars (Int.ofNat m) = c :: cs
          rw [printIntChars, hpc]
        · exact fun hce => absurd (hce ▸ hc) (by decide)
        · exact fun hce => absurd (hce ▸ hc) (by decide)
    | negSucc m =>
      exact ⟨'-', printNatChars (m + 1), rfl, by decide, by decide⟩
  | str s => exact ⟨'"', escChars s.toList ++ ['"'], rfl, by decide, by decide⟩
  | arr vs => exact ⟨'[', printElems vs ++ [']'], rfl, by decide, by decide⟩
  | obj fs => exact ⟨'{', printFieldsJ fs ++ ['}'], rfl, by decide, by decide⟩

/-- A remainder beginning with a non-digit satisfies the number-boundary
condition. -/
theorem restOk_cons {c0 : Char} (h : c0.isDigit = false) (l : List Char) :
    ∀ c, (c0 :: l).head? = some c → c.isDigit = false := by
  intro c hc
  simp only [List.head?_cons, Option.some.injEq] at hc
  rw [← hc]; exact h

/-- The reader inverts the printer: on every pure value (and, for object
fields, every field list whose defined values are pure), reading the
printed form with enough fuel returns the value (the kept fields) and the
untouched remainder. -/
theorem parse_print_all :
    ∀ fuel : Nat,
      (∀ (v : JVal) (rest : List Char), jPure v = true → jSize v ≤ fuel →
        (∀ c, rest.head? = some c → c.isDigit = false) →
        parseVal fuel (printJson v ++ rest) = some (v, rest)) ∧
      (∀ (vs : List JVal) (rest : List Char), vs ≠ [] → jPureList vs = true →
        jSizeList vs ≤ fuel →
        parseElems fuel (printElems vs ++ ']' :: rest) = some (vs, rest)) ∧
      (∀ (fs : List (String × JVal)) (rest : List Char), hasMoreFields fs = true →
        (∀ p ∈ fs, p.2.isUndefVal = true ∨ jPure p.2 = true) → jSizeFields fs ≤ fuel →
        parseFieldsJ fuel (printFieldsJ fs ++ '}' :: rest) = some (stripUndefVal fs, rest)) := by
  intro fuel
  induction fuel with
  | zero =>
    refine ⟨?_, ?_, ?_⟩
    · intro v rest _ hs _
      exact absurd hs (by simp only [jSize]; omega)
    · intro vs rest _ _ hs
      exact absurd hs (by simp only [jSizeList]; omega)
    · intro fs rest _ _ hs
      exact absurd hs (by simp only [jSizeFields]; omega)
  | succ f ih =>
    obtain ⟨ih1, ih2, ih3⟩ := ih
    refine ⟨?_, ?_, ?_⟩
    · intro v rest hp hs hrest
      cases v with
      | undefVal => exact absurd hp (by decide)
      | null => rfl
      | bool b => cases b <;> rfl
      | num n =>
        cases n with
        | ofNat m =>
          cases hpc : printNatChars m with
          | nil => exact absurd hpc (printNatChars_ne_nil m)
          | cons c cs =>
            have hc : c.isDigit = true :=
              printNatChars_all_digits m c (by rw [hpc]; exact List.mem_cons_self c cs)
            have harg : printJson (.num (Int.ofNat m)) ++ rest = c :: (cs ++ rest) := by
              show printNatChars m ++ rest = c :: (cs ++ rest)
              rw [hpc]; rfl
            rw [harg]
            have hstep : parseVal (f + 1) (c :: (cs ++ rest)) =
                if c.isDigit = true then
                  (parseNatChars (c :: (cs ++ rest))).map (fun p => (.num (p.1 : Int), p.2))
                else if c = '"' then
                  (parseStringLit (cs ++ rest)).map (fun p => (.str (String.mk p.1), p.2))
                else if c = '-' then
                  (parseNatChars (cs ++ rest)).map (fun p => (.num (-(p.1 : Int)), p.2))
                else if c = '[' then
                  if headIs (cs ++ rest) ']' then some (.arr [], (cs ++ rest).tail)
                  else (parseElems f (cs ++ rest)).map (fun p => (.arr p.1, p.2))
                else if c = '{' then
                  if headIs (cs ++ rest) '}' then some (.obj [], (cs ++ rest).tail)
                  else (parseFieldsJ f (cs ++ rest)).map (fun p => (.obj p.1, p.2))
                else if c = 'n' then parseLitNull (cs ++ rest)
                else if c = 't' then parseLitTrue (cs ++ rest)
                else if c = 'f' then parseLitFalse (cs ++ rest)
                else none := rfl
            rw [hstep, if_pos hc]
            have harg2 : c :: (cs ++ rest) = printNatChars m ++ rest := by
              rw [hpc]; rfl
            rw [harg2, parseNatChars_print m rest hrest]
            rfl
        | negSucc m =>
          have harg : printJson (.num (Int.negSucc m)) ++ rest =
              '-' :: (printNatChars (m + 1) ++ rest) := rfl
          rw [harg]
          have hstep : parseVal (f + 1) ('-' :: (printNatChars (m + 1) ++ rest)) =
              (parseNatChars (printNatChars (m + 1) ++ rest)).map
                (fun p => (.num (-(p.1 : Int)), p.2)) := rfl
          rw [hstep, parseNatChars_print (m + 1) rest hrest]
          show some (JVal.num (-((m + 1 : Nat) : Int)), rest) =
            some (JVal.num (Int.negSucc m), rest)
          rw [show Int.negSucc m = -(((m + 1 : Nat) : Int)) from by
            rw [Int.negSucc_eq]; push_cast; ring]
      | str s =>
        have harg : printJson (.str s) ++ rest =
            '"' :: (escChars s.toList ++ ('"' :: rest)) := by
          show ('"' :: (escChars s.toList ++ ['"'])) ++ rest = _
          simp [List.cons_append, List.append_assoc]
        rw [harg]
        have hstep : parseVal (f + 1) ('"' :: (escChars s.toList ++ ('"' :: rest))) =
            (parseStringLit (escChars s.toList ++ ('"' :: rest))).map
              (fun p => (.str (String.mk p.1), p.2)) := rfl
        rw [hstep, parseStringLit_esc]
        simp [strMkToList]
      | arr vs =>
        cases vs with
        | nil => rfl
        | cons w ws =>
          have hpw : jPure w = true ∧ jPureList ws = true := by
            have h2 : (jPure w && jPureList ws) = true := hp
            simpa using h2
          have hwu : w.isUndefVal = false := jPure_not_undefVal hpw.1
          obtain ⟨c0, cs0, hpr, hc1, _⟩ := printJson_head hpw.1
          have harg : printJson (.arr (w :: ws)) ++ rest =
              '[' :: (printElems (w :: ws) ++ (']' :: rest)) := by
            show ('[' :: (printElems (w :: ws) ++ [']'])) ++ rest = _
            simp [List.cons_append, List.append_assoc]
          rw [harg]
          have hstep : parseVal (f + 1) ('[' :: (printElems (w :: ws) ++ (']' :: rest))) =
              if headIs (printElems (w :: ws) ++ (']' :: rest)) ']' then
                some (.arr [], (printElems (w :: ws) ++ (']' :: rest)).tail)
              else (parseElems f (printElems (w :: ws) ++ (']' :: rest))).map
                (fun p => (.arr p.1, p.2)) := rfl
          rw [hstep]
          have hprE : ∃ tl, printElems (w :: ws) = c0 :: tl := by
            cases ws with
            | nil => exact ⟨cs0, by rw [printElems_one hwu, hpr]⟩
            | cons w2 ws2 =>
              refine ⟨cs0 ++ ',' :: printElems (w2 :: ws2), ?_⟩
              rw [printElems_cons hwu, hpr]; rfl
          obtain ⟨tl, hprE⟩ := hprE
          have hhead : headIs (printElems (w :: ws) ++ (']' :: rest)) ']' = false := by
            rw [hprE]
            simp [headIs, List.cons_append, hc1]
          rw [if_neg (by rw [hhead]; exact fun hx => nomatch hx)]
          have hsize : jSizeList (w :: ws) ≤ f := by
            simp only [jSize, printJson, List.length_cons, List.length_append,
              List.length_singleton, jSizeList] at hs ⊢
            omega
          rw [ih2 (w :: ws) rest (by simp) hp hsize]
          rfl
      | obj fs =>
        cases hmf : hasMoreFields fs with
        | false =>
          have hfs : fs = [] := by
            cases fs with
            | nil => rfl
            | cons p fs2 =>
              obtain ⟨k, v⟩ := p
              have h1 : jPure v = true := by
                have h2 : (jPure v && jPureFields fs2) = true := hp
                exact (by simpa using h2 : jPure v = true ∧ jPureFields fs2 = true).1
              rw [hasMoreFields_cons (jPure_not_undefVal h1)] at hmf
              exact absurd hmf (by decide)
          subst hfs
          rfl
        | true =>
          cases fs with
          | nil => exact absurd hmf (by decide)
          | cons p fs2 =>
            obtain ⟨k, v⟩ := p
            have hpv : jPure v = true ∧ jPureFields fs2 = true := by
              have h2 : (jPure v && jPureFields fs2) = true := hp
              simpa using h2
            have hvu : v.isUndefVal = false := jPure_not_undefVal hpv.1
            have harg : printJson (.obj ((k, v) :: fs2)) ++ rest =
                '{' :: (printFieldsJ ((k, v) :: fs2) ++ ('}' :: rest)) := by
              show ('{' :: (printFieldsJ ((k, v) :: fs2) ++ ['}'])) ++ rest = _
              simp [List.cons_append, List.append_assoc]
            rw [harg]
            have hstep : parseVal (f + 1)
                ('{' :: (printFieldsJ ((k, v) :: fs2) ++ ('}' :: rest))) =
                if headIs (printFieldsJ ((k, v) :: fs2) ++ ('}' :: rest)) '}' then
                  some (.obj [], (printFieldsJ ((k, v) :: fs2) ++ ('}' :: rest)).tail)
                else (parseFieldsJ f (printFieldsJ ((k, v) :: fs2) ++ ('}' :: rest))).map
                  (fun p => (.obj p.1, p.2)) := rfl
            rw [hstep]
            have hhead : headIs (printFieldsJ ((k, v) :: fs2) ++ ('}' :: rest)) '}' = false := by
              rw [printFieldsJ_cons hvu]
              simp [headIs, List.cons_append]
            rw [if_neg (by rw [hhead]; exact fun hx => nomatch hx)]
            have hsize : jSizeFields ((k, v) :: fs2) ≤ f := by
              simp only [jSize, printJson, List.length_cons, List.length_append,
                List.length_singleton, jSizeFields] at hs ⊢
              omega
            rw [ih3 ((k, v) :: fs2) rest (hasMoreFields_cons hvu fs2)
              (fieldsOk_of_pure (show jPureFields ((k, v) :: fs2) = true from hp)) hsize]
            rw [stripUndefVal_pure (show jPureFields ((k, v) :: fs2) = true from hp)]
            rfl
    · intro vs rest hne hp hs
      cases vs with
      | nil => exact absurd rfl hne
      | cons w ws =>
        have hpw : jPure w = true ∧ jPureList ws = true := by
          have h2 : (jPure w && jPureList ws) = true := hp
          simpa using h2
        have hwu : w.isUndefVal = false := jPure_not_undefVal hpw.1
        have hstepE : ∀ cs : List Char, parseElems (f + 1) cs =
            (match parseVal f cs with
             | some (v, ',' :: r) => (parseElems f r).map (fun p => (v :: p.1, p.2))
             | some (v, ']' :: r) => some ([v], r)
             | _ => none) := fun _ => rfl
        cases ws with
        | nil =>
          rw [printElems_one hwu, hstepE]
          have hsize : jSize w ≤ f := by
            simp only [jSizeList, printElems_one hwu, jSize] at hs ⊢
            omega
          rw [ih1 w (']' :: rest) hpw.1 hsize (restOk_cons (by decide) rest)]
          rfl
        | cons w2 ws2 =>
          rw [printElems_cons hwu]
          have harg : (printJson w ++ ',' :: printElems (w2 :: ws2)) ++ ']' :: rest =
              printJson w ++ (',' :: (printElems (w2 :: ws2) ++ (']' :: rest))) := by
            simp [List.cons_append, List.append_assoc]
          rw [harg, hstepE]
          have hsize : jSize w ≤ f := by
            simp only [jSizeList, printElems_cons hwu, jSize, List.length_append,
              List.length_cons] at hs ⊢
            omega
          rw [ih1 w (',' :: (printElems (w2 :: ws2) ++ (']' :: rest))) hpw.1 hsize
            (restOk_cons (by decide) _)]
          have hsize2 : jSizeList (w2 :: ws2) ≤ f := by
            simp only [jSizeList, printElems_cons hwu, List.length_append,
              List.length_cons] at hs ⊢
            omega
          show (parseElems f (printElems (w2 :: ws2) ++ (']' :: rest))).map
              (fun p => (w :: p.1, p.2)) = some (w :: w2 :: ws2, rest)
          rw [ih2 (w2 :: ws2) rest (by simp) hpw.2 hsize2]
          rfl
    · intro fs
      induction fs with
      | nil => intro rest hmf _ _; exact absurd hmf (by decide)
      | cons p fs2 ihl =>
        obtain ⟨k, v⟩ := p
        intro rest hmf hok hs
        cases hvu : v.isUndefVal with
        | true =>
          have hv : v = .undefVal := by
            cases v <;> first | rfl | simp [JVal.isUndefVal] at hvu
          subst hv
          have hmf2 : hasMoreFields fs2 = true := by
            simpa [hasMoreFields, JVal.isUndefVal] using hmf
          rw [printFieldsJ_cons_drop, stripUndefVal_cons_drop]
          have hs2 : jSizeFields fs2 ≤ f + 1 := by
            simpa [jSizeFields, printFieldsJ_cons_drop] using hs
          exact ihl rest hmf2 (fun q hq => hok q (List.mem_cons_of_mem _ hq)) hs2
        | false =>
          have hpv : jPure v = true := by
            rcases hok (k, v) (List.mem_cons_self _ _) with h | h
            · rw [hvu] at h; exact absurd h (by decide)
            · exact h
          have hstepF : ∀ cs1 : List Char, parseFieldsJ (f + 1) ('"' :: cs1) =
              (match parseStringLit cs1 with
               | some (kcs, ':' :: cs2) =>
                   (match parseVal f cs2 with
                    | some (v2, ',' :: r) =>
                        (parseFieldsJ f r).map (fun p => ((String.mk kcs, v2) :: p.1, p.2))
                    | some (v2, '}' :: r) => some ([(String.mk kcs, v2)], r)
                    | _ => none)
               | _ => none) := fun _ => rfl
          cases hmf2 : hasMoreFields fs2 with
          | false =>
            obtain ⟨hp0, hstrip0⟩ := hasMoreFields_false hmf2
            have harg : printFieldsJ ((k, v) :: fs2) ++ '}' :: rest =
                '"' :: (escChars k.toList ++ ('"' :: (':' :: (printJson v ++ ('}' :: rest))))) := by
              rw [printFieldsJ_cons hvu, hmf2]
              simp [hp0, List.cons_append, List.append_assoc]
            rw [harg, hstepF, parseStringLit_esc]
            have hsize : jSize v ≤ f := by
              simp only [jSizeFields, printFieldsJ_cons hvu, hmf2, hp0, jSize,
                List.length_append, List.length_cons, List.length_nil,
                if_false] at hs ⊢
              omega
            show (match parseVal f (printJson v ++ ('}' :: rest)) with
                  | some (v2, ',' :: r) =>
                      (parseFieldsJ f r).map (fun p => ((String.mk k.toList, v2) :: p.1, p.2))
                  | some (v2, '}' :: r) => some ([(String.mk k.toList, v2)], r)
                  | _ => none) = some (stripUndefVal ((k, v) :: fs2), rest)
            rw [ih1 v ('}' :: rest) hpv hsize (restOk_cons (by decide) rest)]
            rw [stripUndefVal_cons hvu, hstrip0, strMkToList]
            rfl
          | true =>
            have harg : printFieldsJ ((k, v) :: fs2) ++ '}' :: rest =
                '"' :: (escChars k.toList ++ ('"' :: (':' :: (printJson v ++
                  (',' :: (printFieldsJ fs2 ++ ('}' :: rest))))))) := by
              rw [printFieldsJ_cons hvu, hmf2]
              simp [List.cons_append, List.append_assoc]
            rw [harg, hstepF, parseStringLit_esc]
            have hsize : jSize v ≤ f := by
              simp only [jSizeFields, printFieldsJ_cons hvu, hmf2, jSize,
                List.length_append, List.length_cons, if_true] at hs ⊢
              omega
            show (match parseVal f (printJson v ++ (',' :: (printFieldsJ fs2 ++ ('}' :: rest)))) with
                  | some (v2, ',' :: r) =>
                      (parseFieldsJ f r).map (fun p => ((String.mk k.toList, v2) :: p.1, p.2))
                  | some (v2, '}' :: r) => some ([(String.mk k.toList, v2)], r)
                  | _ => none) = some (stripUndefVal ((k, v) :: fs2), rest)
            rw [ih1 v (',' :: (printFieldsJ fs2 ++ ('}' :: rest))) hpv hsize
              (restOk_cons (by decide) _)]
            have hsize2 : jSizeFields fs2 ≤ f := by
              simp only [jSizeFields, printFieldsJ_cons hvu, hmf2, List.length_append,
                List.length_cons, if_true] at hs ⊢
              omega
            show (parseFieldsJ f (printFieldsJ fs2 ++ ('}' :: rest))).map
                (fun p => ((String.mk k.toList, v) :: p.1, p.2)) =
              some (stripUndefVal ((k, v) :: fs2), rest)
            rw [ih3 fs2 rest hmf2 (fun q hq => hok q (List.mem_cons_of_mem _ hq)) hsize2]
            rw [stripUndefVal_cons hvu, strMkToList]
            rfl

/-- A field list with a printable field prints starting with a quote. -/
theorem printFieldsJ_head {fs : List (String × JVal)} (h : hasMoreFields fs = true) :
    ∃ X, printFieldsJ fs = '"' :: X := by
  induction fs with
  | nil => exact absurd h (by decide)
  | cons p fs2 ih =>
    obtain ⟨k, v⟩ := p
    cases hvu : v.isUndefVal with
    | true =>
      have hv : v = .undefVal := by
        cases v <;> first | rfl | simp [JVal.isUndefVal] at hvu
      subst hv
      have h2 : hasMoreFields fs2 = true := by
        simpa [hasMoreFields, JVal.isUndefVal] using h
      obtain ⟨X, hX⟩ := ih h2
      exact ⟨X, by rw [printFieldsJ_cons_drop, hX]⟩
    | false =>
      exact ⟨(escChars k.toList ++ ['"', ':']) ++ printJson v ++
        (if hasMoreFields fs2 then ',' :: printFieldsJ fs2 else printFieldsJ fs2), by
        rw [printFieldsJ_cons hvu]; rfl⟩

/-- Reading a printed object whose defined field values are pure yields
the object of its kept fields. -/
theorem parseVal_print_obj (fuel : Nat) (fs : List (String × JVal)) (rest : List Char)
    (hok : ∀ p ∈ fs, p.2.isUndefVal = true ∨ jPure p.2 = true)
    (hs : jSize (.obj fs) ≤ fuel) :
    parseVal fuel (printJson (.obj fs) ++ rest) = some (.obj (stripUndefVal fs), rest) := by
  have h1 : 1 ≤ jSize (.obj fs) := by simp only [jSize]; omega
  obtain ⟨f, rfl⟩ : ∃ f, fuel = f + 1 := ⟨fuel - 1, by omega⟩
  cases hmf : hasMoreFields fs with
  | false =>
    obtain ⟨hp0, hstrip0⟩ := hasMoreFields_false hmf
    have harg : printJson (.obj fs) ++ rest = '{' :: '}' :: rest := by
      show ('{' :: (printFieldsJ fs ++ ['}'])) ++ rest = _
      rw [hp0]; rfl
    rw [harg, hstrip0]
    rfl
  | true =>
    obtain ⟨X, hX⟩ := printFieldsJ_head hmf
    have harg : printJson (.obj fs) ++ rest = '{' :: (printFieldsJ fs ++ ('}' :: rest)) := by
      show ('{' :: (printFieldsJ fs ++ ['}'])) ++ rest = _
      simp [List.cons_append, List.append_assoc]
    rw [harg]
    have hstep : parseVal (f + 1) ('{' :: (printFieldsJ fs ++ ('}' :: rest))) =
        if headIs (printFieldsJ fs ++ ('}' :: rest)) '}' then
          some (.obj [], (printFieldsJ fs ++ ('}' :: rest)).tail)
        else (parseFieldsJ f (printFieldsJ fs ++ ('}' :: rest))).map
          (fun p => (.obj p.1, p.2)) := rfl
    rw [hstep]
    have hhead : headIs (printFieldsJ fs ++ ('}' :: rest)) '}' = false := by
      rw [hX]; rfl
    rw [if_neg (by rw [hhead]; exact fun hx => nomatch hx)]
    have hsize : jSizeFields fs ≤ f := by
      simp only [jSize, printJson, List.length_cons, List.length_append,
        List.length_singleton, jSizeFields] at hs ⊢
      omega
    rw [(parse_print_all f).2.2 fs rest hmf hok hsize]
    rfl

/-- jsonParse inverts jsonStringify on an object whose defined field
values are pure, returning the object of its kept fields. -/
theorem jsonParse_print_obj (fs : List (String × JVal))
    (hok : ∀ p ∈ fs, p.2.isUndefVal = true ∨ jPure p.2 = true) :
    jsonParse (String.mk (printJson (.obj fs))) = some (.obj (stripUndefVal fs)) := by
  have h := parseVal_print_obj ((printJson (.obj fs)).length + 1) fs [] hok
    (by simp only [jSize]; omega)
  rw [List.append_nil] at h
  unfold jsonParse
  rw [show (String.mk (printJson (.obj fs))).length = (printJson (.obj fs)).length from rfl,
      show (String.mk (printJson (.obj fs))).toList = printJson (.obj fs) from rfl, h]

/-- Claim C8: for every successful upload, the current_document record
written by navigateToAnalysis round-trips through storage: when
RagAnalysis reads and parses the stored value, the document_id and
document_name it obtains equal the ones that were written (when no file
name was at hand, the undefined document_name is dropped by stringify and
reads back as absent, equal to what was written). The only hypothesis is
that the extraction-info value the upload built contains no undefined
value, which holds of both object literals the source constructs. -/
theorem claim_C8_current_document_roundtrip :
    ∀ (pr : ProcessingResult) (name : Option String) (st : Store),
      jPure pr.extractionInfo = true →
      ∃ doc, readCurrentDocument (navigateToAnalysis (some pr) name st) = some doc ∧
        jGetS doc "document_id" = some pr.documentId ∧
        jGetS doc "document_name" = name := by
  intro pr name st hext
  have hnu : pr.extractionInfo.isUndefVal = false := jPure_not_undefVal hext
  cases name with
  | some n =>
    have hok : ∀ p ∈ [("document_id", JVal.str pr.documentId),
        ("document_name", JVal.str n),
        ("chunks_count", JVal.num pr.chunksStored),
        ("processed_at", JVal.num pr.processingTime),
        ("extraction_info", pr.extractionInfo),
        ("processing_mode", JVal.str pr.processingMode)],
        p.2.isUndefVal = true ∨ jPure p.2 = true := by
      intro p hp
      simp only [List.mem_cons, List.not_mem_nil, or_false] at hp
      rcases hp with rfl | rfl | rfl | rfl | rfl | rfl
      · exact Or.inr rfl
      · exact Or.inr rfl
      · exact Or.inr rfl
      · exact Or.inr rfl
      · exact Or.inr hext
      · exact Or.inr rfl
    have hparse := jsonParse_print_obj _ hok
    have hstrip : stripUndefVal [("document_id", JVal.str pr.documentId),
        ("document_name", JVal.str n),
        ("chunks_count", JVal.num pr.chunksStored),
        ("processed_at", JVal.num pr.processingTime),
        ("extraction_info", pr.extractionInfo),
        ("processing_mode", JVal.str pr.processingMode)] =
        [("document_id", JVal.str pr.documentId),
        ("document_name", JVal.str n),
        ("chunks_count", JVal.num pr.chunksStored),
        ("processed_at", JVal.num pr.processingTime),
        ("extraction_info", pr.extractionInfo),
        ("processing_mode", JVal.str pr.processingMode)] := by
      rw [@stripUndefVal_cons "document_id" (JVal.str pr.documentId) rfl,
        @stripUndefVal_cons "document_name" (JVal.str n) rfl,
        @stripUndefVal_cons "chunks_count" (JVal.num pr.chunksStored) rfl,
        @stripUndefVal_cons "processed_at" (JVal.num pr.processingTime) rfl,
        @stripUndefVal_cons "extraction_info" pr.extractionInfo hnu,
        @stripUndefVal_cons "processing_mode" (JVal.str pr.processingMode) rfl]
      rfl
    rw [hstrip] at hparse
    refine ⟨JVal.obj [("document_id", JVal.str pr.documentId),
        ("document_name", JVal.str n),
        ("chunks_count", JVal.num pr.chunksStored),
        ("processed_at", JVal.num pr.processingTime),
        ("extraction_info", pr.extractionInfo),
        ("processing_mode", JVal.str pr.processingMode)], ?_, ?_, ?_⟩
    · show (if strTruthy (String.mk (printJson (currentDocumentRecord pr (some n)))) then
          jsonParse (String.mk (printJson (currentDocumentRecord pr (some n)))) else none) = _
      rw [if_pos (show strTruthy
        (String.mk (printJson (currentDocumentRecord pr (some n)))) = true from rfl)]
      exact hparse
    · rfl
    · rfl
  | none =>
    have hok : ∀ p ∈ [("document_id", JVal.str pr.documentId),
        ("document_name", JVal.undefVal),
        ("chunks_count", JVal.num pr.chunksStored),
        ("processed_at", JVal.num pr.processingTime),
        ("extraction_info", pr.extractionInfo),
        ("processing_mode", JVal.str pr.processingMode)],
        p.2.isUndefVal = true ∨ jPure p.2 = true := by
      intro p hp
      simp only [List.mem_cons, List.not_mem_nil, or_false] at hp
      rcases hp with rfl | rfl | rfl | rfl | rfl | rfl
      · exact Or.inr rfl
      · exact Or.inl rfl
      · exact Or.inr rfl
      · exact Or.inr rfl
      · exact Or.inr hext
      · exact Or.inr rfl
    have hparse := jsonParse_print_obj _ hok
    have hstrip : stripUndefVal [("document_id", JVal.str pr.documentId),
        ("document_name", JVal.undefVal),
        ("chunks_count", JVal.num pr.chunksStored),
        ("processed_at", JVal.num pr.processingTime),
        ("extraction_info", pr.extractionInfo),
        ("processing_mode", JVal.str pr.processingMode)] =
        [("document_id", JVal.str pr.documentId),
        ("chunks_count", JVal.num pr.chunksStored),
        ("processed_at", JVal.num pr.processingTime),
        ("extraction_info", pr.extractionInfo),
        ("processing_mode", JVal.str pr.processingMode)] := by
      rw [@stripUndefVal_cons "document_id" (JVal.str pr.documentId) rfl,
        stripUndefVal_cons_drop,
        @stripUndefVal_cons "chunks_count" (JVal.num pr.chunksStored) rfl,
        @stripUndefVal_cons "processed_at" (JVal.num pr.processingTime) rfl,
        @stripUndefVal_cons "extraction_info" pr.extractionInfo hnu,
        @stripUndefVal_cons "processing_mode" (JVal.str pr.processingMode) rfl]
      rfl
    rw [hstrip] at hparse
    refine ⟨JVal.obj [("document_id", JVal.str pr.documentId),
        ("chunks_count", JVal.num pr.chunksStored),
        ("processed_at", JVal.num pr.processingTime),
        ("extraction_info", pr.extractionInfo),
        ("processing_mode", JVal.str pr.processingMode)], ?_, ?_, ?_⟩
    · show (if strTruthy (String.mk (printJson (currentDocumentRecord pr none))) then
          jsonParse (String.mk (printJson (currentDocumentRecord pr none))) else none) = _
      rw [if_pos (show strTruthy
        (String.mk (printJson (currentDocumentRecord pr none))) = true from rfl)]
      exact hparse
    · rfl
    · rfl

/-- Claim C8 witnessed at a concrete PDF-branch processing result with a
file name present. -/
theorem claim_C8_current_document_roundtrip_witness :
    jPure (JVal.obj [("method", JVal.str "pdf_extraction"), ("quality_score", JVal.num 9),
      ("pages_processed", JVal.num 3)]) = true ∧
    (∃ doc, readCurrentDocument (navigateToAnalysis
        (some ⟨"doc_contract_pdf_1736900000", "doc_contract_pdf_1736900000", 12,
          JVal.obj [("method", JVal.str "pdf_extraction"), ("quality_score", JVal.num 9),
            ("pages_processed", JVal.num 3)], 52100, 1736900000, "enhanced_pdf_processing"⟩)
        (some "contract.pdf") (Store.mk none none none)) = some doc ∧
      jGetS doc "document_id" = some "doc_contract_pdf_1736900000" ∧
      jGetS doc "document_name" = some "contract.pdf") :=
  ⟨rfl, claim_C8_current_document_roundtrip
    ⟨"doc_contract_pdf_1736900000", "doc_contract_pdf_1736900000", 12,
      JVal.obj [("method", JVal.str "pdf_extraction"), ("quality_score", JVal.num 9),
        ("pages_processed", JVal.num 3)], 52100, 1736900000, "enhanced_pdf_processing"⟩
    (some "contract.pdf") (Store.mk none none none) rfl⟩
